import Mathlib

/-!
Verification of the api-amqp request/response and distributed-mutex framework.

The definitions below are a shallow embedding of the JavaScript source:

* `MutexInstance` model (`grant_lock`, `mstep` for `_dispatch` and the
  release disposition hook, `send_response`) from `src/server.js`;
* the client `critical_section` completion/disposition-hook machine and the
  credit-gated `on_sendable` drain from `src/client.js`;
* the `Response` one-shot builder, `Node.dispatch`, the `Path` trie with
  `ServerEndpoint.dispatch`, from `src/server.js`;
* the connection-level correlation table (`new_cid` / `cancel_cid` / the
  `message` handler with its catch clause) from `api-amqp.js`.

Stateful code is modelled by explicit state passing; transport callbacks become
events of small step machines; JavaScript exceptions become `Except`.
-/

/-! ## Server-side mutex model (`MutexInstance` in `src/server.js`) -/

/-- The fields of an acquire request message that the mutex code touches:
`reply_to`, `correlation_id` and the optional `wait_time` application property. -/
structure AMsg where
  reply_to : String
  correlation_id : Nat
  wait_time : Option Nat
  deriving Repr, DecidableEq

/-- A reply message as built by `MutexInstance._send_response` and the 404/400
paths: destination (the request's `reply_to`), correlation id, status,
description, the `acquisition_id` application property (present only on mutex
replies) and the body.  The wire field `to` is spelled `to'` here. -/
structure RMsg where
  to' : String
  correlation_id : Nat
  status : Nat
  status_description : String
  acquisition_id : Option String
  body : Option String
  deriving Repr, DecidableEq

/-- One entry of a `MutexInstance` queue: the delivery (identified by `did`),
the message, whether `grant_lock` has run for it (disposition hook installed,
delivery accepted, 200 sent), and whether its wait timer was armed at enqueue. -/
structure AcqEntry where
  did : Nat
  msg : AMsg
  granted : Bool
  timerArmed : Bool
  deriving Repr, DecidableEq

/-- State of one named `MutexInstance`, with ghost logs of everything the
instance has emitted: `replies` (messages through the anonymous sender),
`accepted` (deliveries accepted, in order — the grant log), `settledL`
(deliveries locally settled via `update(true)`), and `arrivals` (the acquire
requests in arrival order). -/
structure MutexState where
  queue : List AcqEntry
  replies : List RMsg
  accepted : List Nat
  settledL : List Nat
  arrivals : List AcqEntry
  deriving Repr, DecidableEq

/-- `MutexInstance._send_response(message, status, description, body)`, whose
source defaults are status 200, description 'Ok' and an undefined body (the
callers rely on them): the acquisition_id is the hard-coded constant `'abcde'`
(marked `TODO - fix this` in the source). -/
def send_response (msg : AMsg) (status : Nat) (description : String)
    (body : Option String) : RMsg :=
  { to' := msg.reply_to
    correlation_id := msg.correlation_id
    status := status
    status_description := description
    acquisition_id := some "abcde"
    body := body }

/-- `MutexInstance.grant_lock()`: installs the release hook on the head's
delivery (modelled by the `granted` flag), accepts the head's delivery, and
sends the 200 response for the head's message.  The source only calls it with a
non-empty queue; on an empty queue the model is the identity. -/
def grant_lock (s : MutexState) : MutexState :=
  match s.queue with
  | [] => s
  | e :: rest =>
      { s with
        queue := { e with granted := true } :: rest
        accepted := s.accepted ++ [e.did]
        replies := s.replies ++ [send_response e.msg 200 "Ok" none] }

/-- JavaScript truthiness of the `wait_time` application property: present and
non-zero. -/
def waitTimeTruthy : Option Nat → Bool
  | none => false
  | some w => w != 0

/-- Events driving one `MutexInstance`: an acquire request arrives
(`MutexInstance._dispatch`), the client's release is observed on a delivery
(the `remote_settled && !settled` branch of the hook that `grant_lock`
installed), or an armed wait timer fires (whose handler body is an empty
`TODO` in the source). -/
inductive MEvent where
  | acquire (did : Nat) (msg : AMsg)
  | release (did : Nat)
  | timerFire (did : Nat)
  deriving Repr, DecidableEq

/-- One step of the mutex instance event machine, translated from
`MutexInstance._dispatch` and the disposition hook installed by `grant_lock`:

* `acquire`: push `{delivery, message, timer}` (the timer is armed only when
  the queue was non-empty and `wait_time` is truthy); if the queue length
  became 1, `grant_lock`.
* `release d`: the hook fires only for a delivery that has a hook installed
  and is not yet locally settled — i.e. the granted head; it locally settles
  the delivery (`update(true)`), pops the head, and grants the new head if the
  queue is non-empty.
* `timerFire`: the `setTimeout` handler body is `// TODO` — it does nothing. -/
def mstep (s : MutexState) (ev : MEvent) : MutexState :=
  match ev with
  | .acquire did msg =>
      let entry : AcqEntry :=
        { did := did
          msg := msg
          granted := false
          timerArmed := decide (s.queue.length > 0) && waitTimeTruthy msg.wait_time }
      let s' := { s with queue := s.queue ++ [entry], arrivals := s.arrivals ++ [entry] }
      if s.queue.length = 0 then grant_lock s' else s'
  | .release did =>
      match s.queue with
      | [] => s
      | e :: rest =>
          if e.did == did && e.granted then
            grant_lock { s with queue := rest, settledL := s.settledL ++ [did] }
          else s
  | .timerFire _ => s

/-- The initial state of a freshly constructed `MutexInstance`. -/
def minit : MutexState :=
  { queue := [], replies := [], accepted := [], settledL := [], arrivals := [] }

/-- Run the mutex instance machine over a list of events from the initial
state. -/
def mrun (evs : List MEvent) : MutexState :=
  evs.foldl mstep minit

/-! ## Client-side `critical_section` completion machine (`src/client.js`) -/

/-- The local variables of one `critical_section` call that the completion and
the disposition hook share: whether the correlator completion has been invoked
with a 200 reply (`got_reply`), whether `request_delivery` has been recorded by
the hook, `inner_completed`, the client-side `delivery.settled` flag, how many
settle signals have been issued (`request_delivery.update(true)` or
`delivery.settled = true`), and whether the outer promise was resolved. -/
structure CSState where
  got_reply : Bool
  request_delivery : Bool
  inner_completed : Bool
  delivery_settled : Bool
  settle_count : Nat
  resolved : Bool
  deriving Repr, DecidableEq

/-- Events of one `critical_section`: the Accepted disposition reaches the
hook, the 200 reply reaches the correlator completion (which then suspends at
`await inner`), and `inner` completes (the rest of the completion runs). -/
inductive CSEvent where
  | accepted
  | reply200
  | innerDone
  deriving Repr, DecidableEq

/-- Initial local state of a `critical_section` call. -/
def csinit : CSState :=
  { got_reply := false, request_delivery := false, inner_completed := false
    delivery_settled := false, settle_count := 0, resolved := false }

/-- One step of the `critical_section` client machine, translated from the
completion installed in `in_flight[cid]` and the `on_update` hook passed to the
`OutgoingMessage` (`src/client.js`):

* `accepted` (hook, `state == STATE_ACCEPTED`, server not having settled):
  record the delivery; if `inner` has already completed, settle it now
  (`delivery.settled = true`).
* `reply200`: the completion starts and suspends at `await inner`.
* `innerDone`: `inner_completed = true`; if the delivery is already recorded,
  settle it (`request_delivery.update(true)`); resolve the promise. -/
def cstep (s : CSState) : CSEvent → CSState
  | .accepted =>
      let s' := { s with request_delivery := true }
      if s.inner_completed then
        { s' with delivery_settled := true, settle_count := s.settle_count + 1 }
      else s'
  | .reply200 => { s with got_reply := true }
  | .innerDone =>
      if s.got_reply then
        let s' := { s with inner_completed := true }
        let s'' :=
          if s.request_delivery then
            { s' with delivery_settled := true, settle_count := s.settle_count + 1 }
          else s'
        { s'' with resolved := true }
      else s

/-- Run the `critical_section` client machine over a list of events. -/
def csrun (evs : List CSEvent) : CSState := evs.foldl cstep csinit

/-! ## Credit-gated per-class outbox (`ClientEndpoint._on_sendable`) -/

/-- An `OutgoingMessage` of one link class: the request (identified by its
correlation id), its optional `on_update` disposition hook, and its `reply_to`
field (stamped at send time). -/
structure OutMsg where
  cid : Nat
  on_update : Option Nat
  reply_to : Option String
  deriving Repr, DecidableEq

/-- One transmitted message: the stamped message and the `__on_update` hook
bound to the delivery returned by `sender.send`. -/
structure SentRec where
  msg : OutMsg
  hook : Option Nat
  deriving Repr, DecidableEq

/-- The drain loop of `ClientEndpoint._on_sendable`: while credit remains and
the outbox is non-empty, shift the first message, stamp `reply_to`, send it,
and bind its hook to the returned delivery.  Returns the sent records (in
order) and the remaining outbox. -/
def drain (rt : String) : Nat → List OutMsg → List SentRec × List OutMsg
  | 0, outbox => ([], outbox)
  | _ + 1, [] => ([], [])
  | credit + 1, m :: rest =>
      let sent := drain rt credit rest
      ({ msg := { m with reply_to := some rt }, hook := m.on_update } :: sent.1, sent.2)

/-- `ClientEndpoint._on_sendable(sender)`: if the connection's dynamic reply
address is unknown or the sender has no link class, return without sending;
otherwise drain as credit allows. -/
def on_sendable (reply_to : Option String) (link_class : Option Nat) (credit : Nat)
    (outbox : List OutMsg) : List SentRec × List OutMsg :=
  match reply_to, link_class with
  | some rt, some _ => drain rt credit outbox
  | _, _ => ([], outbox)

/-- State of one link class of a `ClientEndpoint`, with ghost logs: everything
ever enqueued (`enqLog`) and everything ever transmitted (`sentLog`). -/
structure LinkState where
  reply_to : Option String
  outbox : List OutMsg
  sentLog : List SentRec
  enqLog : List OutMsg
  deriving Repr, DecidableEq

/-- Events acting on one link class: the dynamic reply address becomes known
(`receiver_open` → `_on_reply_addr_ready` → `_on_sendable`), a request is
enqueued (`fetch`/`critical_section` push then poke `_on_sendable`), and the
transport signals `sendable`.  Each carries the sender's credit at that
moment. -/
inductive LEvent where
  | replyOpened (rt : String) (credit : Nat)
  | enqueue (m : OutMsg) (credit : Nat)
  | sendable (credit : Nat)
  deriving Repr, DecidableEq

/-- One step of the link-class machine (the sender's `__link_class` is set in
the constructor, hence known). -/
def lstep (s : LinkState) : LEvent → LinkState
  | .replyOpened rt credit =>
      let dr := on_sendable (some rt) (some 0) credit s.outbox
      { s with reply_to := some rt, outbox := dr.2, sentLog := s.sentLog ++ dr.1 }
  | .enqueue m credit =>
      let dr := on_sendable s.reply_to (some 0) credit (s.outbox ++ [m])
      { s with outbox := dr.2, sentLog := s.sentLog ++ dr.1, enqLog := s.enqLog ++ [m] }
  | .sendable credit =>
      let dr := on_sendable s.reply_to (some 0) credit s.outbox
      { s with outbox := dr.2, sentLog := s.sentLog ++ dr.1 }

/-- Initial state of a link class: no reply address, empty outbox. -/
def linit : LinkState :=
  { reply_to := none, outbox := [], sentLog := [], enqLog := [] }

/-- Run the link-class machine over a list of events. -/
def lrun (evs : List LEvent) : LinkState := evs.foldl lstep linit

/-- Invariant of a link class: transmit order equals enqueue order (the sent
log followed by the pending outbox is the enqueue log), every transmitted
message was stamped with a reply address and had its hook bound to the
returned delivery, and nothing is transmitted before the reply address is
known. -/
def LInv (s : LinkState) : Prop :=
  s.sentLog.map (·.msg.cid) ++ s.outbox.map (·.cid) = s.enqLog.map (·.cid)
  ∧ s.sentLog.all (fun r => r.hook == r.msg.on_update && r.msg.reply_to.isSome) = true
  ∧ (s.reply_to = none → s.sentLog = [])

/-! ## One-shot `Response` builder (`src/server.js`) -/

/-- The mutable state of a `Response`: the `sent` flag, the accumulated
`application_properties.status`, the body, and a ghost count of
`sender.send` calls. -/
structure ResponseState where
  sent : Bool
  status? : Option Nat
  body : Option String
  emit_count : Nat
  deriving Repr, DecidableEq

/-- A freshly constructed `Response`. -/
def Response.init : ResponseState :=
  { sent := false, status? := none, body := none, emit_count := 0 }

/-- `Response.status(code)`: throws if already sent, else records the status
and returns `this`. -/
def Response.status (r : ResponseState) (code : Nat) : Except String ResponseState :=
  if r.sent then .error "Setting status on an already sent response"
  else .ok { r with status? := some code }

/-- `Response.send(body)`: throws if already sent, else emits the reply through
the sender and marks the response sent. -/
def Response.send (r : ResponseState) (body : Option String) : Except String ResponseState :=
  if r.sent then .error "Sending on an already sent response"
  else .ok { r with body := body, sent := true, emit_count := r.emit_count + 1 }

/-- `Response.end()`: forwards to `send(undefined)`. -/
def Response.end' (r : ResponseState) : Except String ResponseState :=
  Response.send r none

/-! ## Correlator and the fetch timeout (`src/client.js`, `api-amqp.js`) -/

/-- Combined connection/endpoint correlation state: the connection-level
`in_flight` table (`APIConnection`), the endpoint-local `in_flight` table
(`ClientEndpoint`), the next correlation id, and ghost logs of completions
invoked, deliveries rejected-and-settled by the catch clause of the `message`
handler, and timeout rejections delivered to callers. -/
structure ConnState where
  conn_in_flight : List Nat
  ep_in_flight : List Nat
  next_cid : Nat
  invoked : List Nat
  rejected_settled : List Nat
  timeout_errors : List Nat
  deriving Repr, DecidableEq

/-- `APIConnection._new_cid`: allocate the next id, register the dispatch
object; the caller (`fetch`) also registers its endpoint-local completion. -/
def new_cid (s : ConnState) : Nat × ConnState :=
  (s.next_cid,
   { s with
     next_cid := s.next_cid + 1
     conn_in_flight := s.conn_in_flight ++ [s.next_cid]
     ep_in_flight := s.ep_in_flight ++ [s.next_cid] })

/-- `APIConnection._cancel_cid(cid)`: delete the connection-level entry. -/
def cancel_cid (s : ConnState) (cid : Nat) : ConnState :=
  { s with conn_in_flight := s.conn_in_flight.filter (· ≠ cid) }

/-- The `fetch` timeout timer: delete the endpoint-local record, cancel the
Correlator entry, reject the caller with the timeout error. -/
def fetch_timeout (s : ConnState) (cid : Nat) : ConnState :=
  cancel_cid
    { s with
      ep_in_flight := s.ep_in_flight.filter (· ≠ cid)
      timeout_errors := s.timeout_errors ++ [cid] }
    cid

/-- A reply message arriving on the connection's reply receiver
(`APIConnection._setup_handlers`, the `message` handler), composed with
`ClientEndpoint._dispatch`: if the cid is unknown to the connection, the
handler throws and the catch clause rejects and settles the delivery; if known,
the endpoint removes both records and invokes the completion. -/
def reply_arrival (s : ConnState) (cid : Nat) : ConnState :=
  if cid ∈ s.conn_in_flight then
    if cid ∈ s.ep_in_flight then
      { s with
        ep_in_flight := s.ep_in_flight.filter (· ≠ cid)
        conn_in_flight := s.conn_in_flight.filter (· ≠ cid)
        invoked := s.invoked ++ [cid] }
    else s
  else
    { s with rejected_settled := s.rejected_settled ++ [cid] }

/-! ## `Node._dispatch` and the connection-level catch (`src/server.js`) -/

/-- A routed handler node: per-verb handler lists (the `handlers` object has
exactly the keys `get`, `put`, `post`, `delete`, `watch`) and whether
`mutex()` has created the node's mutex set (`this._mutex !== undefined`). -/
structure SNode where
  hget : List Nat
  hput : List Nat
  hpost : List Nat
  hdelete : List Nat
  hwatch : List Nat
  hasMutex : Bool
  deriving Repr, DecidableEq

/-- JavaScript `String.prototype.toLowerCase()`, character-wise. -/
def jsToLower (s : String) : String := ⟨s.data.map Char.toLower⟩

/-- `this.handlers[opcode]` — `undefined` for any key other than the five
verbs. -/
def SNode.handlersFor (nd : SNode) (opcode : String) : Option (List Nat) :=
  if opcode = "get" then some nd.hget
  else if opcode = "put" then some nd.hput
  else if opcode = "post" then some nd.hpost
  else if opcode = "delete" then some nd.hdelete
  else if opcode = "watch" then some nd.hwatch
  else none

/-- `Node.mutex()`: lazily create the node's mutex set. -/
def SNode.mkMutex (nd : SNode) : SNode := { nd with hasMutex := true }

/-- The observable effects of `Node._dispatch`: handlers invoked (in
registration order), whether the request was handed to the mutex set, whether
the inbound delivery was accepted and settled here, and the `(status, body)`
responses sent through the anonymous sender. -/
structure NodeOut where
  invoked : List Nat
  mutexDispatched : Bool
  acceptedSettled : Bool
  responses : List (Nat × String)
  deriving Repr, DecidableEq

/-- `Node._dispatch(context)`: lowercase the op; `acquire` goes to
`this._mutex` (a TypeError if `mutex()` was never called); otherwise iterate
`this.handlers[opcode]` (a TypeError if the key is absent), then accept and
settle; if nothing handled the request, send the 400 response. -/
def SNode.dispatch (nd : SNode) (op : String) : Except Unit NodeOut :=
  let opcode := jsToLower op
  if opcode = "acquire" then
    if nd.hasMutex then
      .ok { invoked := [], mutexDispatched := true, acceptedSettled := false, responses := [] }
    else
      .error ()
  else
    match nd.handlersFor opcode with
    | none => .error ()
    | some hs =>
        .ok { invoked := hs
              mutexDispatched := false
              acceptedSettled := true
              responses :=
                if hs.isEmpty then [(400, "Method not permitted for this resource")] else [] }

/-- What reaches the wire after the connection's `message` handler wraps a
dispatch: on an exception the catch clause sends nothing and rejects and
settles the inbound delivery. -/
structure WireOut where
  responses : List (Nat × String)
  acceptedSettled : Bool
  rejectedSettled : Bool
  deriving Repr, DecidableEq

/-- The try/catch of the `message` handler in `APIConnection._setup_handlers`
around a node dispatch. -/
def conn_message (r : Except Unit NodeOut) : WireOut :=
  match r with
  | .ok o =>
      { responses := o.responses, acceptedSettled := o.acceptedSettled, rejectedSettled := false }
  | .error _ =>
      { responses := [], acceptedSettled := false, rejectedSettled := true }

/-! ## Path trie and `ServerEndpoint._dispatch` (`src/server.js`) -/

/-- The `Path` trie: an optional handler node and named children.  Children
keep JavaScript object key order: existing keys update in place, new keys are
appended. -/
inductive PathT where
  | mk : Option Nat → List (String × PathT) → PathT

/-- The `node` field of a `Path`. -/
def PathT.node : PathT → Option Nat
  | .mk n _ => n

/-- The `children` map of a `Path`. -/
def PathT.children : PathT → List (String × PathT)
  | .mk _ cs => cs

/-- `new Path()`. -/
def PathT.empty : PathT := .mk none []

/-- `Path.get_child(name)`. -/
def PathT.get_child (t : PathT) (name : String) : Option PathT :=
  t.children.lookup name

/-- Assignment `children[element] = v`: update in place, or append a new key. -/
def updateChild : List (String × PathT) → String → PathT → List (String × PathT)
  | [], k, v => [(k, v)]
  | (k', v') :: rest, k, v =>
      if k' = k then (k, v) :: rest else (k', v') :: updateChild rest k v

/-- `Path.insert(node, elements)`: empty segments are skipped; at the end of
the element list the handler node is stored (overwriting any previous one). -/
def PathT.insert (t : PathT) (n : Nat) : List String → PathT
  | [] => .mk (some n) t.children
  | e :: rest =>
      if e = "" then t.insert n rest
      else
        match t.get_child e with
        | some c => .mk t.node (updateChild t.children e (c.insert n rest))
        | none => .mk t.node (updateChild t.children e (PathT.empty.insert n rest))

/-- `ServerEndpoint._find_path(tree, elements)`: skip empty segments, descend
through children, `undefined` when a segment has no child. -/
def find_path : PathT → List String → Option PathT
  | t, [] => some t
  | t, e :: rest =>
      if e = "" then find_path t rest
      else
        match t.get_child e with
        | some c => find_path c rest
        | none => none

/-- JavaScript `String.prototype.split(sep)` for a one-character separator,
over the character list. -/
def jsSplitChars (sep : Char) : List Char → List (List Char)
  | [] => [[]]
  | c :: rest =>
      let r := jsSplitChars sep rest
      if c = sep then [] :: r
      else
        match r with
        | [] => [[c]]
        | h :: t => (c :: h) :: t

/-- JavaScript `path.split('/')`. -/
def jsSplit (s : String) (sep : Char) : List String :=
  (jsSplitChars sep s.data).map List.asString

/-- `ServerEndpoint.route(path)`: split on `/` and insert the new node. -/
def route (t : PathT) (n : Nat) (path : String) : PathT :=
  t.insert n (jsSplit path '/')

/-- The observable outcome of `ServerEndpoint._dispatch`: the node the request
was routed to (if any), the 404 reply (if sent), and whether this function
accepted and settled the inbound delivery. -/
structure SrvOut where
  routed : Option Nat
  response : Option RMsg
  acceptedSettled : Bool

/-- The 404 outcome of `ServerEndpoint._dispatch`. -/
def notFoundOut (reply_to : String) (cid : Nat) : SrvOut :=
  { routed := none
    response := some
      { to' := reply_to, correlation_id := cid, status := 404
        status_description := "Not Found", acquisition_id := none
        body := some "No resource found at path" }
    acceptedSettled := true }

/-- `ServerEndpoint._dispatch(context)`: if `application_properties.path` is
truthy, split it and walk the trie; dispatch to the found node; otherwise send
the 404 reply and accept-and-settle the delivery. -/
def ServerEndpoint.dispatch (tree : PathT) (path? : Option String) (reply_to : String)
    (cid : Nat) : SrvOut :=
  let node :=
    match path? with
    | some pathtext =>
        if pathtext ≠ "" then (find_path tree (jsSplit pathtext '/')).bind PathT.node
        else none
    | none => none
  match node with
  | some n => { routed := some n, response := none, acceptedSettled := false }
  | none => notFoundOut reply_to cid

/-! ## Concrete fixtures used by witnesses and counterexamples -/

/-- An acquire message with correlation id 1 and no wait time. -/
def msgA : AMsg := { reply_to := "amq.dyn.client", correlation_id := 1, wait_time := none }

/-- An acquire message with correlation id 2 and no wait time. -/
def msgB : AMsg := { reply_to := "amq.dyn.client", correlation_id := 2, wait_time := none }

/-- An acquire message with correlation id 3 and a 100 ms wait time. -/
def msgW : AMsg := { reply_to := "amq.dyn.client", correlation_id := 3, wait_time := some 100 }

/-- The head of the queue, if there is one, has been granted. -/
def headGranted : List AcqEntry → Prop
  | [] => True
  | e :: _ => e.granted = true

/-- The master invariant of the mutex queue: the head (if any) is granted, no
other queued entry is granted, and the grant log followed by the delivery ids
of the waiting (non-head) entries is exactly the arrival order. -/
def MInv (s : MutexState) : Prop :=
  (∀ e ∈ s.queue.drop 1, e.granted = false)
  ∧ headGranted s.queue
  ∧ s.accepted ++ (s.queue.map (·.did)).drop 1 = s.arrivals.map (·.did)

/-! ## Theorems -/

theorem minv_init : MInv minit := by
  refine ⟨?_, trivial, rfl⟩
  intro e he
  simp [minit] at he

theorem minv_step (s : MutexState) (ev : MEvent) (h : MInv s) : MInv (mstep s ev) := by
  obtain ⟨q, rp, ac, st, ar⟩ := s
  obtain ⟨hrest, hhead, hlog⟩ := h
  simp only at hrest hhead hlog
  cases ev with
  | acquire did msg =>
      cases q with
      | nil =>
          simp only [List.map_nil, List.drop_nil, List.append_nil] at hlog
          refine ⟨?_, ?_, ?_⟩
          · intro e he
            simp [mstep, grant_lock] at he
          · simp [mstep, grant_lock, headGranted]
          · simp [mstep, grant_lock, send_response, hlog]
      | cons e rest =>
          have hq : ¬ ((e :: rest).length = 0) := by simp
          refine ⟨?_, ?_, ?_⟩
          · intro x hx
            simp only [mstep, if_neg hq, List.cons_append, List.drop_succ_cons,
              List.drop_zero, List.mem_append, List.mem_singleton] at hx
            rcases hx with hx | hx
            · exact hrest x (by simpa using hx)
            · simp [hx]
          · simpa [mstep, if_neg hq, headGranted] using hhead
          · simp only [List.map_cons, List.drop_succ_cons, List.drop_zero] at hlog
            simp only [mstep, if_neg hq, List.cons_append, List.map_cons,
              List.map_append, List.drop_succ_cons, List.drop_zero]
            simp [← List.append_assoc, hlog]
  | release did =>
      cases q with
      | nil => exact ⟨hrest, hhead, hlog⟩
      | cons e rest =>
          by_cases hg : (e.did == did && e.granted) = true
          · obtain ⟨hd, hgr⟩ : e.did = did ∧ e.granted = true := by simpa using hg
            simp only [List.map_cons, List.drop_succ_cons, List.drop_zero] at hlog
            cases rest with
            | nil =>
                refine ⟨?_, ?_, ?_⟩
                · intro x hx
                  simp [mstep, hd, hgr, grant_lock] at hx
                · simp [mstep, hd, hgr, grant_lock, headGranted]
                · simpa [mstep, hd, hgr, grant_lock] using hlog
            | cons f rs =>
                refine ⟨?_, ?_, ?_⟩
                · intro x hx
                  simp [mstep, hd, hgr, grant_lock] at hx
                  exact hrest x (by simp [hx])
                · simp [mstep, hd, hgr, grant_lock, headGranted]
                · simp only [List.map_cons] at hlog
                  simp [mstep, hd, hgr, grant_lock, hlog]
          · simp only [mstep, if_neg hg]
            exact ⟨hrest, hhead, hlog⟩
  | timerFire d => exact ⟨hrest, hhead, hlog⟩

theorem minv_run (evs : List MEvent) : MInv (mrun evs) := by
  suffices h : ∀ s, MInv s → MInv (evs.foldl mstep s) from h minit minv_init
  induction evs with
  | nil => intro s hs; exact hs
  | cons ev rest ih =>
      intro s hs
      exact ih (mstep s ev) (minv_step s ev hs)

theorem reply_for_head (s : MutexState) (ev : MEvent) (r : RMsg)
    (h : (mstep s ev).replies = s.replies ++ [r]) :
    ((mstep s ev).queue.head?).map (fun e => e.msg.correlation_id) = some r.correlation_id := by
  cases ev with
  | acquire did msg =>
      by_cases hq : s.queue.length = 0
      · have hqe : s.queue = [] := List.length_eq_zero.mp hq
        simp [mstep, hqe, grant_lock] at h ⊢
        simp [← h, send_response]
      · simp [mstep, hq] at h
  | release did =>
      cases hc : s.queue with
      | nil => simp [mstep, hc] at h
      | cons e rest =>
          by_cases hg : (e.did == did && e.granted) = true
          · cases hr : rest with
            | nil => simp [mstep, hc, hg, hr, grant_lock] at h
            | cons f rs =>
                simp [mstep, hc, hg, hr, grant_lock] at h ⊢
                simp [← h, send_response]
          · simp [mstep, hc, hg] at h
  | timerFire d => simp [mstep] at h

/-- **C1** (invariants): at every reachable state of the `MutexInstance` event
machine at most one queued acquire request is in the granted state (and only
the head can be granted); whenever a step emits a 200 grant reply, that reply
is for the entry standing at the head of the FIFO queue after the step — a new
grant is issued only once the previous head has been shifted off the queue. -/
theorem mutex_mutual_exclusion (evs : List MEvent) (ev : MEvent) :
    (mrun evs).queue.countP (·.granted) ≤ 1
    ∧ (∀ e ∈ (mrun evs).queue.drop 1, e.granted = false)
    ∧ (∀ r, (mstep (mrun evs) ev).replies = (mrun evs).replies ++ [r] →
        ((mstep (mrun evs) ev).queue.head?).map (fun e => e.msg.correlation_id)
          = some r.correlation_id) := by
  obtain ⟨hrest, hhead, -⟩ := minv_run evs
  refine ⟨?_, hrest, fun r h => reply_for_head _ _ _ h⟩
  cases hc : (mrun evs).queue with
  | nil => simp
  | cons e rest =>
      have hz : rest.countP (·.granted) = 0 := by
        apply List.countP_eq_zero.mpr
        intro x hx
        simpa using hrest x (by simp [hc, hx])
      simp [List.countP_cons, hz]
      split <;> omega

/-- Witness for `mutex_mutual_exclusion` at a two-acquire trace followed by a
release of the first holder. -/
theorem mutex_mutual_exclusion_witness :
    (mrun [.acquire 1 msgA, .acquire 2 msgB]).queue.countP (·.granted) ≤ 1
    ∧ (⟨2, msgB, false, false⟩ : AcqEntry).granted = false
    ∧ ((mstep (mrun [.acquire 1 msgA, .acquire 2 msgB]) (.release 1)).queue.head?).map
        (fun e => e.msg.correlation_id)
        = some (send_response msgB 200 "Ok" none).correlation_id := by
  obtain ⟨h1, h2, h3⟩ := mutex_mutual_exclusion [.acquire 1 msgA, .acquire 2 msgB] (.release 1)
  exact ⟨h1, h2 ⟨2, msgB, false, false⟩ (by decide),
         h3 (send_response msgB 200 "Ok" none) (by decide)⟩

/-- **C3** (temporal): FIFO fairness per mutex instance.  If acquire `A1`
arrives strictly before `A2` (positions `i < j` in the arrival log, deliveries
pairwise distinct) and `A2` has been granted, then `A1` was granted at a
strictly earlier position of the grant log: acquires join at the tail, only the
head is granted, and a release pops exactly the head and grants the new head. -/
theorem mutex_fifo_fairness (evs : List MEvent)
    (hnd : ((mrun evs).arrivals.map (·.did)).Nodup)
    (i j : Nat) (hij : i < j) (hj : j < (mrun evs).arrivals.length)
    (hjg : ((mrun evs).arrivals.get ⟨j, hj⟩).did ∈ (mrun evs).accepted) :
    ∃ (gi gj : Nat) (hgi : gi < (mrun evs).accepted.length)
      (hgj : gj < (mrun evs).accepted.length),
      gi < gj
      ∧ (mrun evs).accepted.get ⟨gi, hgi⟩
          = ((mrun evs).arrivals.get ⟨i, Nat.lt_trans hij hj⟩).did
      ∧ (mrun evs).accepted.get ⟨gj, hgj⟩ = ((mrun evs).arrivals.get ⟨j, hj⟩).did := by
  obtain ⟨-, -, hlog⟩ := minv_run evs
  have hlen : ((mrun evs).arrivals.map (·.did)).length = (mrun evs).arrivals.length := by
    simp
  have hjd : j < ((mrun evs).arrivals.map (·.did)).length := by omega
  have hid : i < ((mrun evs).arrivals.map (·.did)).length := by omega
  have hacc : (mrun evs).accepted
      = ((mrun evs).arrivals.map (·.did)).take (mrun evs).accepted.length := by
    conv_rhs => rw [← hlog]
    rw [List.take_left]
  have hgetj : ((mrun evs).arrivals.map (·.did)).get ⟨j, hjd⟩
      = ((mrun evs).arrivals.get ⟨j, hj⟩).did := by
    simp
  rw [hacc, ← hgetj] at hjg
  obtain ⟨m, hm, hme⟩ := List.mem_iff_getElem.mp hjg
  have hmlen : m < (mrun evs).accepted.length ∧ m < ((mrun evs).arrivals.map (·.did)).length := by
    simp only [List.length_take] at hm
    omega
  have hme' : ((mrun evs).arrivals.map (·.did)).get ⟨m, hmlen.2⟩
      = ((mrun evs).arrivals.map (·.did)).get ⟨j, hjd⟩ := by
    rw [← hme]
    simp [List.getElem_take]
  have hmj : m = j := by
    have h2 := (List.Nodup.get_inj_iff hnd).mp hme'
    exact congrArg Fin.val h2
  have hjk : j < (mrun evs).accepted.length := hmj ▸ hmlen.1
  have hik : i < (mrun evs).accepted.length := Nat.lt_trans hij hjk
  refine ⟨i, j, hik, hjk, hij, ?_, ?_⟩
  · have h1 := List.getElem_of_eq hacc hik
    rw [List.get_eq_getElem, h1]
    simp
  · have h1 := List.getElem_of_eq hacc hjk
    rw [List.get_eq_getElem, h1]
    simp

/-- Witness for `mutex_fifo_fairness`: two acquires then a release; the second
arrival is granted strictly after the first. -/
theorem mutex_fifo_fairness_witness :
    ∃ (gi gj : Nat)
      (hgi : gi < (mrun [.acquire 1 msgA, .acquire 2 msgB, .release 1]).accepted.length)
      (hgj : gj < (mrun [.acquire 1 msgA, .acquire 2 msgB, .release 1]).accepted.length),
      gi < gj
      ∧ (mrun [.acquire 1 msgA, .acquire 2 msgB, .release 1]).accepted.get ⟨gi, hgi⟩
          = ((mrun [.acquire 1 msgA, .acquire 2 msgB, .release 1]).arrivals.get
              ⟨0, by decide⟩).did
      ∧ (mrun [.acquire 1 msgA, .acquire 2 msgB, .release 1]).accepted.get ⟨gj, hgj⟩
          = ((mrun [.acquire 1 msgA, .acquire 2 msgB, .release 1]).arrivals.get
              ⟨1, by decide⟩).did :=
  mutex_fifo_fairness [.acquire 1 msgA, .acquire 2 msgB, .release 1]
    (by decide) 0 1 (by decide) (by decide) (by decide)

/-- **C4** (functional_correctness, failing in the code): every grant reply
does carry an `acquisition_id`, but `_send_response` hard-codes the constant
`'abcde'` (with a `TODO - fix this` comment), so the two distinct grants of the
trace `[acquire 1, acquire 2, release 1]` carry equal acquisition ids instead
of the fresh-per-grant identifiers the specification requires. -/
theorem acquisition_id_not_fresh :
    (∀ msg : AMsg, ∀ (st : Nat) (d : String) (b : Option String),
      (send_response msg st d b).acquisition_id = some "abcde")
    ∧ (mrun [.acquire 1 msgA, .acquire 2 msgB, .release 1]).accepted = [1, 2]
    ∧ ((mrun [.acquire 1 msgA, .acquire 2 msgB, .release 1]).replies.map
        (·.acquisition_id)) = [some "abcde", some "abcde"] := by
  exact ⟨fun msg st d b => rfl, by decide, by decide⟩

/-- **C5** (error_handling, failing in the code): enqueuing behind a holder
with a `wait_time` does arm the waiter's timer (and the head's timer is never
armed), but the timer's `setTimeout` handler body is an empty `TODO`, so when
it fires nothing happens: no timeout reply is sent to the waiter, its delivery
is not settled, and it stays in the queue. -/
theorem wait_timer_fire_is_noop :
    (∀ (s : MutexState) (d : Nat), mstep s (.timerFire d) = s)
    ∧ ((mrun [.acquire 1 msgA, .acquire 2 msgW]).queue.map
        (fun e => (e.did, e.timerArmed))) = [(1, false), (2, true)]
    ∧ mrun [.acquire 1 msgA, .acquire 2 msgW, .timerFire 2]
        = mrun [.acquire 1 msgA, .acquire 2 msgW]
    ∧ ((mrun [.acquire 1 msgA, .acquire 2 msgW, .timerFire 2]).replies.map
        (·.correlation_id)) = [1]
    ∧ (mrun [.acquire 1 msgA, .acquire 2 msgW, .timerFire 2]).settledL = [] := by
  exact ⟨fun s d => rfl, by decide, by decide, by decide, by decide⟩

/-- **C2** (functional_correctness): release closure.  For a `critical_section`
whose acquire is answered 200 and whose `inner` completes, the client settles
the acquire delivery exactly once, in every ordering of the race between the
Accepted disposition and `inner` completing (Accepted last, Accepted during
`inner`, Accepted before the reply), and the outer promise resolves.  On the
server, observing that settlement on the head of a mutex queue pops exactly
the head, locally settles its delivery, and in the same atomic step grants the
new head when the queue is non-empty. -/
theorem critical_section_release_closure (evs : List MEvent) (e f : AcqEntry)
    (rs : List AcqEntry) (hq : (mrun evs).queue = e :: f :: rs) :
    ((csrun [.reply200, .innerDone, .accepted]).settle_count = 1
      ∧ (csrun [.reply200, .innerDone, .accepted]).resolved = true)
    ∧ ((csrun [.reply200, .accepted, .innerDone]).settle_count = 1
      ∧ (csrun [.reply200, .accepted, .innerDone]).resolved = true)
    ∧ ((csrun [.accepted, .reply200, .innerDone]).settle_count = 1
      ∧ (csrun [.accepted, .reply200, .innerDone]).resolved = true)
    ∧ (mstep (mrun evs) (.release e.did)).queue.map (·.did) = f.did :: rs.map (·.did)
    ∧ (mstep (mrun evs) (.release e.did)).accepted = (mrun evs).accepted ++ [f.did]
    ∧ (mstep (mrun evs) (.release e.did)).settledL = (mrun evs).settledL ++ [e.did]
    ∧ (∀ (evs' : List MEvent) (g : AcqEntry), (mrun evs').queue = [g] →
        (mstep (mrun evs') (.release g.did)).queue = []
        ∧ (mstep (mrun evs') (.release g.did)).accepted = (mrun evs').accepted
        ∧ (mstep (mrun evs') (.release g.did)).settledL
            = (mrun evs').settledL ++ [g.did]) := by
  have hgr : e.granted = true := by
    have h2 := (minv_run evs).2.1
    rw [hq] at h2
    simpa [headGranted] using h2
  have hlast : ∀ (evs' : List MEvent) (g : AcqEntry), (mrun evs').queue = [g] →
      (mstep (mrun evs') (.release g.did)).queue = []
      ∧ (mstep (mrun evs') (.release g.did)).accepted = (mrun evs').accepted
      ∧ (mstep (mrun evs') (.release g.did)).settledL
          = (mrun evs').settledL ++ [g.did] := by
    intro evs' g hq'
    have hgr' : g.granted = true := by
      have h2 := (minv_run evs').2.1
      rw [hq'] at h2
      simpa [headGranted] using h2
    refine ⟨?_, ?_, ?_⟩ <;> simp [mstep, hq', hgr', grant_lock]
  refine ⟨by decide, by decide, by decide, ?_, ?_, ?_, hlast⟩ <;>
    simp [mstep, hq, hgr, grant_lock]

/-- Witness for `critical_section_release_closure` at the two-acquire trace. -/
theorem critical_section_release_closure_witness :
    ((csrun [.reply200, .innerDone, .accepted]).settle_count = 1
      ∧ (csrun [.reply200, .innerDone, .accepted]).resolved = true)
    ∧ ((csrun [.reply200, .accepted, .innerDone]).settle_count = 1
      ∧ (csrun [.reply200, .accepted, .innerDone]).resolved = true)
    ∧ ((csrun [.accepted, .reply200, .innerDone]).settle_count = 1
      ∧ (csrun [.accepted, .reply200, .innerDone]).resolved = true)
    ∧ (mstep (mrun [.acquire 1 msgA, .acquire 2 msgB])
        (.release (⟨1, msgA, true, false⟩ : AcqEntry).did)).queue.map (·.did)
        = (⟨2, msgB, false, false⟩ : AcqEntry).did :: ([] : List AcqEntry).map (·.did)
    ∧ (mstep (mrun [.acquire 1 msgA, .acquire 2 msgB])
        (.release (⟨1, msgA, true, false⟩ : AcqEntry).did)).accepted
        = (mrun [.acquire 1 msgA, .acquire 2 msgB]).accepted
            ++ [(⟨2, msgB, false, false⟩ : AcqEntry).did]
    ∧ (mstep (mrun [.acquire 1 msgA, .acquire 2 msgB])
        (.release (⟨1, msgA, true, false⟩ : AcqEntry).did)).settledL
        = (mrun [.acquire 1 msgA, .acquire 2 msgB]).settledL
            ++ [(⟨1, msgA, true, false⟩ : AcqEntry).did]
    ∧ ((mstep (mrun [.acquire 1 msgA]) (.release (⟨1, msgA, true, false⟩ : AcqEntry).did)).queue
        = []
      ∧ (mstep (mrun [.acquire 1 msgA])
          (.release (⟨1, msgA, true, false⟩ : AcqEntry).did)).accepted
          = (mrun [.acquire 1 msgA]).accepted
      ∧ (mstep (mrun [.acquire 1 msgA])
          (.release (⟨1, msgA, true, false⟩ : AcqEntry).did)).settledL
          = (mrun [.acquire 1 msgA]).settledL ++ [(⟨1, msgA, true, false⟩ : AcqEntry).did]) := by
  obtain ⟨h1, h2, h3, h4, h5, h6, h7⟩ :=
    critical_section_release_closure [.acquire 1 msgA, .acquire 2 msgB]
      ⟨1, msgA, true, false⟩ ⟨2, msgB, false, false⟩ [] (by decide)
  exact ⟨h1, h2, h3, h4, h5, h6, h7 [.acquire 1 msgA] ⟨1, msgA, true, false⟩ (by decide)⟩

theorem drain_spec (rt : String) (credit : Nat) (outbox : List OutMsg) :
    (drain rt credit outbox).1
      = (outbox.take credit).map
          (fun m => { msg := { m with reply_to := some rt }, hook := m.on_update })
    ∧ (drain rt credit outbox).2 = outbox.drop credit := by
  induction credit generalizing outbox with
  | zero => simp [drain]
  | succ c ih =>
      cases outbox with
      | nil => simp [drain]
      | cons m rest =>
          have h := ih rest
          simp [drain, h.1, h.2]

theorem linv_init : LInv linit := by
  refine ⟨rfl, rfl, fun _ => rfl⟩

theorem map_stamp_cid (rt : String) (l : List OutMsg) :
    (l.map (fun m =>
      ({ msg := { m with reply_to := some rt }, hook := m.on_update } : SentRec))).map
        (·.msg.cid)
      = l.map (·.cid) := by
  induction l with
  | nil => rfl
  | cons a t ih => simp [ih]

theorem map_stamp_hooks (rt : String) (l : List OutMsg) :
    (l.map (fun m =>
      ({ msg := { m with reply_to := some rt }, hook := m.on_update } : SentRec))).all
        (fun r => r.hook == r.msg.on_update && r.msg.reply_to.isSome) = true := by
  induction l with
  | nil => rfl
  | cons a t ih => simp [ih]

theorem linv_step (s : LinkState) (ev : LEvent) (h : LInv s) : LInv (lstep s ev) := by
  obtain ⟨hfifo, hhooks, hnone⟩ := h
  have key : ∀ (rt : String) (credit : Nat) (extra : List OutMsg),
      (s.sentLog ++ (drain rt credit (s.outbox ++ extra)).1).map (·.msg.cid)
          ++ (drain rt credit (s.outbox ++ extra)).2.map (·.cid)
        = (s.enqLog ++ extra).map (·.cid)
      ∧ (s.sentLog ++ (drain rt credit (s.outbox ++ extra)).1).all
          (fun r => r.hook == r.msg.on_update && r.msg.reply_to.isSome) = true := by
    intro rt credit extra
    obtain ⟨h1, h2⟩ := drain_spec rt credit (s.outbox ++ extra)
    constructor
    · rw [h1, h2]
      simp only [List.map_append, map_stamp_cid]
      rw [List.append_assoc, ← List.map_append, List.take_append_drop]
      simp only [List.map_append]
      rw [← List.append_assoc, hfifo]
    · rw [h1, List.all_append, hhooks, Bool.true_and]
      exact map_stamp_hooks rt _
  cases ev with
  | replyOpened rt credit =>
      have hk := key rt credit []
      simp only [List.append_nil] at hk
      exact ⟨hk.1, hk.2, by intro hc; simp [lstep] at hc⟩
  | enqueue m credit =>
      cases hr : s.reply_to with
      | none =>
          have hempty : s.sentLog = [] := hnone hr
          have hfifo2 : s.outbox.map (·.cid) = s.enqLog.map (·.cid) := by
            simpa [hempty] using hfifo
          refine ⟨?_, ?_, fun _ => ?_⟩ <;>
            simp [lstep, hr, on_sendable, hfifo2, hhooks, hempty]
      | some rt =>
          have hk := key rt credit [m]
          exact ⟨by simpa [lstep, hr, on_sendable] using hk.1,
                 by simpa [lstep, hr, on_sendable] using hk.2,
                 by intro hc; simp [lstep, hr] at hc⟩
  | sendable credit =>
      cases hr : s.reply_to with
      | none =>
          have hempty : s.sentLog = [] := hnone hr
          have hfifo2 : s.outbox.map (·.cid) = s.enqLog.map (·.cid) := by
            simpa [hempty] using hfifo
          refine ⟨?_, ?_, fun _ => ?_⟩ <;>
            simp [lstep, hr, on_sendable, hfifo2, hhooks, hempty]
      | some rt =>
          have hk := key rt credit []
          simp only [List.append_nil] at hk
          exact ⟨by simpa [lstep, hr, on_sendable] using hk.1,
                 by simpa [lstep, hr, on_sendable] using hk.2,
                 by intro hc; simp [lstep, hr] at hc⟩

theorem linv_run (evs : List LEvent) : LInv (lrun evs) := by
  suffices h : ∀ s, LInv s → LInv (evs.foldl lstep s) from h linit linv_init
  induction evs with
  | nil => intro s hs; exact hs
  | cons ev rest ih =>
      intro s hs
      exact ih (lstep s ev) (linv_step s ev hs)

/-- **C6** (invariants): credit-gated per-class FIFO send.  In every reachable
state of a link class, the transmit log followed by the pending outbox equals
the enqueue order (transmit order = enqueue order), every transmitted message
is stamped with the dynamic reply address and has its `on_update` hook bound
to the returned delivery, and nothing has been transmitted while the reply
address is unknown; moreover a single `_on_sendable` call sends nothing when
the reply address or the link class is unknown, and never sends more messages
than the sender has credit. -/
theorem outbox_credit_gated_fifo (evs : List LEvent) (lc : Option Nat) (credit : Nat)
    (outbox : List OutMsg) :
    ((lrun evs).sentLog.map (·.msg.cid) ++ (lrun evs).outbox.map (·.cid)
        = (lrun evs).enqLog.map (·.cid))
    ∧ ((lrun evs).sentLog.all
        (fun r => r.hook == r.msg.on_update && r.msg.reply_to.isSome) = true)
    ∧ ((lrun evs).reply_to = none → (lrun evs).sentLog = [])
    ∧ on_sendable none lc credit outbox = ([], outbox)
    ∧ (∀ rt : String, on_sendable (some rt) none credit outbox = ([], outbox))
    ∧ (∀ rt : String, (on_sendable (some rt) (some 0) credit outbox).1.length ≤ credit) := by
  obtain ⟨h1, h2, h3⟩ := linv_run evs
  refine ⟨h1, h2, h3, ?_, fun rt => rfl, fun rt => ?_⟩
  · cases lc <;> rfl
  · have hd := (drain_spec rt credit outbox).1
    simp only [on_sendable, hd, List.length_map, List.length_take]
    omega

/-- Witness for `outbox_credit_gated_fifo`: one message enqueued before the
reply address is known is still pending, and nothing has been sent. -/
theorem outbox_credit_gated_fifo_witness :
    ((lrun [.enqueue ⟨5, some 9, none⟩ 3]).sentLog.map (·.msg.cid)
        ++ (lrun [.enqueue ⟨5, some 9, none⟩ 3]).outbox.map (·.cid)
      = (lrun [.enqueue ⟨5, some 9, none⟩ 3]).enqLog.map (·.cid))
    ∧ (lrun [.enqueue ⟨5, some 9, none⟩ 3]).sentLog = []
    ∧ on_sendable none (some 0) 3 [⟨5, some 9, none⟩] = ([], [⟨5, some 9, none⟩])
    ∧ on_sendable (some "addr") none 3 [⟨5, some 9, none⟩] = ([], [⟨5, some 9, none⟩])
    ∧ (on_sendable (some "addr") (some 0) 3 [⟨5, some 9, none⟩]).1.length ≤ 3 := by
  obtain ⟨h1, h2, h3, h4, h5, h6⟩ :=
    outbox_credit_gated_fifo [.enqueue ⟨5, some 9, none⟩ 3] (some 0) 3 [⟨5, some 9, none⟩]
  exact ⟨h1, h3 (by decide), h4, h5 "addr", h6 "addr"⟩

/-- **C7 counterexample**: calling `status` twice on a fresh `Response` (with
no intervening `send`) does **not** fail — the second call succeeds and simply
overwrites the status.  Only uses after a `send`/`end` fail. -/
theorem response_status_twice_succeeds :
    (Response.status Response.init 200 >>= fun r => Response.status r 404)
      = Except.ok { sent := false, status? := some 404, body := none, emit_count := 0 } := by
  rfl

/-- **C7** (error_handling), amended: the first `send` (or `end`) on an unsent
`Response` emits the reply exactly once and marks the response sent, and any
use after that — `status`, `send` or `end` on a sent response — fails
immediately with an "already sent" error; `status` alone may be repeated
before the first send. -/
theorem response_one_shot (r : ResponseState) (b b' : Option String) (c : Nat)
    (h : r.sent = false) :
    Response.send r b
        = Except.ok { r with body := b, sent := true, emit_count := r.emit_count + 1 }
    ∧ (∀ r' : ResponseState, r'.sent = true →
        Response.status r' c = Except.error "Setting status on an already sent response"
        ∧ Response.send r' b' = Except.error "Sending on an already sent response"
        ∧ Response.end' r' = Except.error "Sending on an already sent response")
    ∧ Response.status r c = Except.ok { r with status? := some c } := by
  refine ⟨by simp [Response.send, h], fun r' h' => ?_, by simp [Response.status, h]⟩
  exact ⟨by simp [Response.status, h'], by simp [Response.send, h'],
         by simp [Response.end', Response.send, h']⟩

/-- Witness for `response_one_shot` on a fresh `Response`. -/
theorem response_one_shot_witness :
    Response.send Response.init (some "hello")
        = Except.ok { sent := true, status? := none, body := some "hello", emit_count := 1 }
    ∧ (∀ r' : ResponseState, r'.sent = true →
        Response.status r' 200 = Except.error "Setting status on an already sent response"
        ∧ Response.send r' (some "again") = Except.error "Sending on an already sent response"
        ∧ Response.end' r' = Except.error "Sending on an already sent response")
    ∧ Response.status Response.init 200
        = Except.ok { sent := false, status? := some 200, body := none, emit_count := 0 } :=
  response_one_shot Response.init (some "hello") (some "again") 200 (by decide)

/-- **C8** (error_handling): timeout cancellation.  The `fetch` timeout removes
both the endpoint-local record and the connection-level Correlator entry and
rejects the caller with the timeout error; a reply bearing that cid arriving
afterwards hits the unknown-correlation-id throw, whose catch rejects and
settles the delivery without invoking any completion callback. -/
theorem fetch_timeout_cancellation (s : ConnState) (cid : Nat) :
    cid ∉ (fetch_timeout s cid).conn_in_flight
    ∧ cid ∉ (fetch_timeout s cid).ep_in_flight
    ∧ (fetch_timeout s cid).timeout_errors = s.timeout_errors ++ [cid]
    ∧ (reply_arrival (fetch_timeout s cid) cid).invoked = (fetch_timeout s cid).invoked
    ∧ (reply_arrival (fetch_timeout s cid) cid).rejected_settled
        = (fetch_timeout s cid).rejected_settled ++ [cid]
    ∧ (reply_arrival (fetch_timeout s cid) cid).conn_in_flight
        = (fetch_timeout s cid).conn_in_flight
    ∧ (reply_arrival (fetch_timeout s cid) cid).ep_in_flight
        = (fetch_timeout s cid).ep_in_flight := by
  have hmem : cid ∉ (fetch_timeout s cid).conn_in_flight := by
    simp [fetch_timeout, cancel_cid]
  have hmem2 : cid ∉ (fetch_timeout s cid).ep_in_flight := by
    simp [fetch_timeout, cancel_cid]
  refine ⟨hmem, hmem2, by simp [fetch_timeout, cancel_cid], ?_, ?_, ?_, ?_⟩ <;>
    simp [reply_arrival, hmem]

/-- **C9** (safety): `Node._dispatch` on a routed node raises no exception
exactly when the request's op, lowercased, is one of
`get`/`put`/`post`/`delete`/`watch`, or is `acquire` on a node whose mutex set
has been created via `mutex()`; for every other op — and for `acquire` on a
route without a mutex set — it throws, and then the connection-level catch
sends no response and rejects and settles the inbound delivery. -/
theorem node_dispatch_exception_iff (nd : SNode) (op : String) :
    ((nd.dispatch op).isOk = true
      ↔ (jsToLower op ∈ (["get", "put", "post", "delete", "watch"] : List String)
          ∨ (jsToLower op = "acquire" ∧ nd.hasMutex = true)))
    ∧ ((nd.dispatch op).isOk = false →
        conn_message (nd.dispatch op)
          = { responses := [], acceptedSettled := false, rejectedSettled := true }) := by
  constructor
  · unfold SNode.dispatch SNode.handlersFor
    by_cases h1 : jsToLower op = "acquire"
    · cases hm : nd.hasMutex <;> simp [h1, hm, Except.isOk, Except.toBool]
    · by_cases h2 : jsToLower op = "get"
      · simp [h1, h2, Except.isOk, Except.toBool]
      · by_cases h3 : jsToLower op = "put"
        · simp [h1, h2, h3, Except.isOk, Except.toBool]
        · by_cases h4 : jsToLower op = "post"
          · simp [h1, h2, h3, h4, Except.isOk, Except.toBool]
          · by_cases h5 : jsToLower op = "delete"
            · simp [h1, h2, h3, h4, h5, Except.isOk, Except.toBool]
            · by_cases h6 : jsToLower op = "watch"
              · simp [h1, h2, h3, h4, h5, h6, Except.isOk, Except.toBool]
              · simp [h1, h2, h3, h4, h5, h6, Except.isOk, Except.toBool]
  · intro hko
    cases hd : nd.dispatch op with
    | ok o => rw [hd] at hko; simp [Except.isOk, Except.toBool] at hko
    | error e => rfl

/-- Witness for `node_dispatch_exception_iff`: `acquire` on a node without a
mutex set throws and the catch rejects and settles with no response. -/
theorem node_dispatch_exception_iff_witness :
    ((SNode.dispatch ⟨[], [], [], [], [], false⟩ "ACQUIRE").isOk = true
      ↔ (jsToLower "ACQUIRE" ∈ (["get", "put", "post", "delete", "watch"] : List String)
          ∨ (jsToLower "ACQUIRE" = "acquire"
              ∧ (⟨[], [], [], [], [], false⟩ : SNode).hasMutex = true)))
    ∧ conn_message (SNode.dispatch ⟨[], [], [], [], [], false⟩ "ACQUIRE")
        = { responses := [], acceptedSettled := false, rejectedSettled := true } := by
  obtain ⟨h1, h2⟩ := node_dispatch_exception_iff ⟨[], [], [], [], [], false⟩ "ACQUIRE"
  exact ⟨h1, h2 (by decide)⟩

/-- **C10** (error_handling): empty-path requests always 404.  For any trie —
including one where a handler node has been registered at the root via
`route("")` or `route("/")` — a request whose `application_properties.path` is
missing or empty gets the 404 reply with body "No resource found at path" and
its delivery accepted and settled; the root node is never consulted.  The last
two conjuncts show that `route("")`/`route("/")` do register node 7 at the
trie root, so the first two are not vacuous. -/
theorem empty_path_always_404 (tree : PathT) (rt : String) (cid : Nat) :
    ServerEndpoint.dispatch tree none rt cid = notFoundOut rt cid
    ∧ ServerEndpoint.dispatch tree (some "") rt cid = notFoundOut rt cid
    ∧ (notFoundOut rt cid).response
        = some { to' := rt, correlation_id := cid, status := 404
                 status_description := "Not Found", acquisition_id := none
                 body := some "No resource found at path" }
    ∧ (notFoundOut rt cid).acceptedSettled = true
    ∧ (route PathT.empty 7 "").node = some 7
    ∧ (route PathT.empty 7 "/").node = some 7 := by
  refine ⟨rfl, by simp [ServerEndpoint.dispatch], rfl, rfl, by decide, by decide⟩
